import Mathlib

/-
  Verification of the Paper UI control layer: value codecs, command
  debouncing/coalescing and the tap-versus-hold gesture discriminator,
  embedded shallowly from
  `web-src/js/control/controllers.control.js` and the companion Java class
  `OnOffValue`.
-/

namespace Smarthome

/- ## JavaScript value model

A JavaScript value flowing through the controllers is a finite number, the
special value NaN, or a string.  Rationals stand in for JS numbers; the code
under scrutiny only produces values where this is faithful. -/

inductive JsVal where
  | num (q : ℚ)
  | nan
  | str (s : String)
deriving DecidableEq, Repr

/-- Whitespace as trimmed by the JavaScript ToNumber conversion. -/
def isJsSpace (c : Char) : Bool :=
  c = ' ' ∨ c = '\t' ∨ c = '\n' ∨ c = '\r'

/-- Value of a list of decimal digit characters, most significant first. -/
def digitsVal (l : List Char) : ℕ :=
  l.foldl (fun a c => 10 * a + (c.toNat - '0'.toNat)) 0

/-- Models the JavaScript `Number(string)` conversion (ToNumber) for the plain
decimal literals that item states use: optional surrounding whitespace,
optional sign, digits with an optional fractional part.  The empty (or
all-whitespace) string converts to 0; anything else unparsable is NaN,
modelled as `none`.  Hexadecimal, exponent and Infinity forms never occur in
this code and are not modelled. -/
def jsNumberOfString (s : String) : Option ℚ :=
  let l := ((s.data.dropWhile isJsSpace).reverse.dropWhile isJsSpace).reverse
  match l with
  | [] => some 0
  | _ =>
    let sign : Bool := l.head? = some '-'
    let l' := if l.head? = some '-' ∨ l.head? = some '+' then l.tail else l
    let intPart := l'.takeWhile Char.isDigit
    let rest := l'.dropWhile Char.isDigit
    let mag : Option ℚ :=
      match rest with
      | [] => if intPart = [] then none else some (digitsVal intPart)
      | '.' :: frac =>
        if frac.all Char.isDigit ∧ (intPart ≠ [] ∨ frac ≠ []) then
          some (mkRat (digitsVal intPart * 10 ^ frac.length + digitsVal frac) (10 ^ frac.length))
        else none
      | _ => none
    mag.map fun q => if sign then -q else q

/-- Models the JavaScript `parseInt(string)` used on colour components:
leading whitespace skipped, optional sign, then the longest leading run of
decimal digits; no digits yields NaN (`none`). -/
def jsParseInt (s : String) : Option ℤ :=
  let l := s.data.dropWhile isJsSpace
  let neg : Bool := l.head? = some '-'
  let l' := if l.head? = some '-' ∨ l.head? = some '+' then l.tail else l
  let ds := l'.takeWhile Char.isDigit
  if ds = [] then none
  else some (if neg then -(digitsVal ds : ℤ) else (digitsVal ds : ℤ))

/-- Models the JavaScript `string.split(sep)` for a one-character separator:
the list of (possibly empty) pieces between occurrences of the separator. -/
def splitOnChar (c : Char) : List Char → List (List Char)
  | [] => [[]]
  | x :: xs =>
    if x = c then [] :: splitOnChar c xs
    else
      match splitOnChar c xs with
      | [] => [[x]]
      | h :: t => (x :: h) :: t

/-- `s.split(c)` on strings. -/
def jsSplit (s : String) (c : Char) : List String :=
  (splitOnChar c s.data).map fun l => ⟨l⟩

/-- The numeric view of a JS value, as taken by `Math.ceil` and arithmetic:
numbers are themselves, strings go through ToNumber, NaN stays NaN. -/
def jsToNumber : JsVal → Option ℚ
  | JsVal.num q => some q
  | JsVal.nan => none
  | JsVal.str s => jsNumberOfString s

/-- `Math.ceil(v)`: ceiling of the numeric view; NaN propagates. -/
def jsCeil (v : JsVal) : Option ℤ :=
  (jsToNumber v).map fun q => ⌈q⌉

/-- String conversion of a `Math.ceil` result, as performed by the `+`
concatenation in `toState`. -/
def ceilString (v : JsVal) : String :=
  match jsCeil v with
  | some i => toString i
  | none => "NaN"

/-- ASCII upper-casing, character by character, as `toUpperCase()` behaves on
the ASCII literals this code compares against. -/
def jsToUpper (s : String) : String :=
  ⟨s.data.map Char.toUpper⟩

/- ## OnOffValue: the boolean wire codec

Embeds the Java class `OnOffValue`.  Only the fields the update methods read
are modelled; `boolValue` is the return value rather than mutable state, and
a thrown `IllegalArgumentException` is `none`. -/

structure OnOffValue where
  onValue : String
  offValue : String
  inverse : Bool
deriving DecidableEq, Repr

/-- `OnOffValue.update(String)`: classify the wire string against the on
literals (`onValue` exactly, `"ON"` up-cased, `"1"` exactly), then the off
literals (`offValue` exactly, `"OFF"` up-cased, `"0"` exactly), throwing
(`none`) otherwise; afterwards apply `inverse` once to the classified value. -/
def OnOffValue.updateStr (v : OnOffValue) (updatedValue : String) : Option Bool :=
  let classified : Option Bool :=
    if v.onValue = updatedValue ∨ "ON" = jsToUpper updatedValue ∨ "1" = updatedValue then
      some true
    else if v.offValue = updatedValue ∨ "OFF" = jsToUpper updatedValue ∨ "0" = updatedValue then
      some false
    else
      none
  classified.map fun b => if v.inverse then !b else b

/-- `OnOffValue.update(Command)` on an `OnOffType` command (`true` is ON):
apply `inverse` to the commanded boolean, then render it as the configured
wire literal. -/
def OnOffValue.updateCmdOnOff (v : OnOffValue) (b : Bool) : String :=
  let boolValue := if v.inverse then !b else b
  if boolValue then v.onValue else v.offValue

/- ## Numeric state decoding in `getItems`

For a `Number`-typed item, `getItems` splits a unit suffix off the state
string at the first space (only when that space is at a positive index,
mirroring `state.indexOf(' ') > 0`), parses the numeric part with `Number`,
and overwrites `item.state` with the parsed value only when it is not NaN. -/

structure NumericResult where
  state : JsVal
  unit : Option String
deriving DecidableEq, Repr

def numericItemUpdate (itemState : String) : NumericResult :=
  let l := itemState.data
  let i := l.findIdx fun c => c = ' '
  if 0 < i ∧ i < l.length then
    let unitStr : String := ⟨l.drop (i + 1)⟩
    let core : String := ⟨l.take i⟩
    match jsNumberOfString core with
    | some q => ⟨JsVal.num q, some unitStr⟩
    | none => ⟨JsVal.str itemState, some unitStr⟩
  else
    match jsNumberOfString itemState with
    | some q => ⟨JsVal.num q, none⟩
    | none => ⟨JsVal.str itemState, none⟩

/- ## Colour codec: `getStateAsObject` and `toState` -/

structure ColorObj where
  h : JsVal
  s : JsVal
  b : JsVal
deriving DecidableEq, Repr

/-- A `parseInt` result as stored into a colour channel field. -/
def parseIntVal (s : String) : JsVal :=
  match jsParseInt s with
  | some i => JsVal.num (i : ℚ)
  | none => JsVal.nan

/-- `getStateAsObject`: split the wire state on commas; exactly three parts
are `parseInt`-ed into hue, saturation and brightness, any other shape
yields the all-zero object. -/
def getStateAsObject (state : String) : ColorObj :=
  match jsSplit state ',' with
  | [p0, p1, p2] => ⟨parseIntVal p0, parseIntVal p1, parseIntVal p2⟩
  | _ => ⟨JsVal.num 0, JsVal.num 0, JsVal.num 0⟩

/-- `toState`: `Math.ceil` each channel and join with commas. -/
def toState (c : ColorObj) : String :=
  ceilString c.h ++ "," ++ ceilString c.s ++ "," ++ ceilString c.b

/- ## ColorItemController.setColor: the debounce timer body

Inputs are the values the callback reads when it fires: the item state
string and the three scope slider values (`none` models NaN or undefined).
Outputs are the new item state (also the command sent) and the scope
brightness and saturation after the call. -/

structure SetColorResult where
  itemState : String
  command : String
  brightness : Option ℚ
  saturation : Option ℚ
deriving DecidableEq, Repr

/-- `isNaN(x) ? '0' : x` as applied to the scope sliders. -/
def numOrZeroStr : Option ℚ → JsVal
  | none => JsVal.str "0"
  | some q => JsVal.num q

def setColorFire (itemState : String) (brightness saturation hue : Option ℚ) :
    SetColorResult :=
  let st0 := getStateAsObject itemState
  let st1 : ColorObj :=
    { st0 with b := numOrZeroStr brightness, s := numOrZeroStr saturation,
               h := numOrZeroStr hue }
  let uninit := itemState = "UNDEF" ∨ itemState = "NULL" ∨ itemState = "-"
  let st2 := if uninit then { st1 with b := JsVal.num 100, s := JsVal.num 100 } else st1
  let brightness' := if uninit then some 100 else brightness
  let saturation' := if uninit then some 100 else saturation
  let newState := toState st2
  ⟨newState, newState, brightness', saturation'⟩

/- ## DimmerItemController.sendCommand: cancel-and-restart debounce

`sendCommand` cancels any pending `$timeout` and arms a fresh 300 ms one
that delivers the command captured at arming time.  Timers are modelled
idealised: an armed timer fires exactly at its due time.  A run processes a
time-stamped list of `sendCommand` calls, firing any due timer before each
call, and finally lets a still-armed timer fire. -/

structure DimmerSched (α : Type) where
  commandTimeout : Option (ℕ × α)
  sent : List (ℕ × α)
deriving DecidableEq, Repr

def DimmerSched.start {α : Type} : DimmerSched α := ⟨none, []⟩

/-- The body of `sendCommand`: cancel the pending timeout if any, then arm a
new one for 300 ms later carrying `command`. -/
def dimmerSendCommand {α : Type} (st : DimmerSched α) (now : ℕ) (command : α) :
    DimmerSched α :=
  { st with commandTimeout := some (now + 300, command) }

/-- Fire the armed timeout when its due time has been reached by `t`:
`$scope.sendCommand(command)` runs and the handle clears. -/
def dimmerFireDue {α : Type} (st : DimmerSched α) (t : ℕ) : DimmerSched α :=
  match st.commandTimeout with
  | some (ft, c) =>
    if ft ≤ t then { commandTimeout := none, sent := st.sent ++ [(ft, c)] } else st
  | none => st

/-- Let a timer still armed after the last interaction fire. -/
def dimmerDrain {α : Type} (st : DimmerSched α) : DimmerSched α :=
  match st.commandTimeout with
  | some (ft, c) => { commandTimeout := none, sent := st.sent ++ [(ft, c)] }
  | none => st

def dimmerRun {α : Type} : DimmerSched α → List (ℕ × α) → DimmerSched α
  | st, [] => dimmerDrain st
  | st, (t, c) :: rest => dimmerRun (dimmerSendCommand (dimmerFireDue st t) t c) rest

/- ## ColorItemController.setBrightness: pending-flag debounce

`setBrightness` always overwrites `$scope.brightness`; only when no timer is
pending does it arm a 300 ms `$timeout` and set `pending`.  The callback
reads the freshest brightness, sends `isNaN(b) ? '0' : b`, and clears
`pending`.  The same run discipline as for the dimmer applies. -/

structure BrightnessSched where
  brightness : Option ℚ
  pending : Bool
  fireAt : Option ℕ
  sent : List (ℕ × JsVal)
deriving DecidableEq, Repr

def BrightnessSched.start : BrightnessSched := ⟨none, false, none, []⟩

def colorSetBrightness (st : BrightnessSched) (now : ℕ) (b : Option ℚ) :
    BrightnessSched :=
  if st.pending then { st with brightness := b }
  else { st with brightness := b, pending := true, fireAt := some (now + 300) }

def colorFireDue (st : BrightnessSched) (t : ℕ) : BrightnessSched :=
  match st.fireAt with
  | some ft =>
    if ft ≤ t then
      { st with fireAt := none, pending := false,
                sent := st.sent ++ [(ft, numOrZeroStr st.brightness)] }
    else st
  | none => st

def colorDrain (st : BrightnessSched) : BrightnessSched :=
  match st.fireAt with
  | some ft =>
    { st with fireAt := none, pending := false,
              sent := st.sent ++ [(ft, numOrZeroStr st.brightness)] }
  | none => st

def colorRun : BrightnessSched → List (ℕ × Option ℚ) → BrightnessSched
  | st, [] => colorDrain st
  | st, (t, b) :: rest => colorRun (colorSetBrightness (colorFireDue st t) t b) rest

/- ## PlayerItemController: tap versus hold on the previous-track control

`onPrevDown` records the press time, clears the interruption flag and arms a
300 ms `$timeout` whose callback sends REWIND only if the flag is still
clear; the code never cancels this timer.  `onPrevUp` compares the press
time plus 300 against the release time: a quick release sets the flag and
sends PREVIOUS at once, a late release schedules a PLAY settle command. -/

inductive PlayerCmd where
  | rewind
  | previous
  | fastforward
  | next
  | play
deriving DecidableEq, Repr

structure PlayerState where
  isInterrupted : Bool
  time : ℕ
  holdTimer : Option ℕ
  sent : List PlayerCmd
deriving DecidableEq, Repr

def PlayerState.start : PlayerState := ⟨false, 0, none, []⟩

def onPrevDown (st : PlayerState) (now : ℕ) : PlayerState :=
  { st with isInterrupted := false, time := now, holdTimer := some (now + 300) }

/-- The armed hold-timer callback runs: REWIND goes out only when the gesture
was not interrupted; the handle clears because the callback has run. -/
def fireHoldTimer (st : PlayerState) : PlayerState :=
  match st.holdTimer with
  | some _ =>
    { st with holdTimer := none,
              sent := if st.isInterrupted then st.sent else st.sent ++ [PlayerCmd.rewind] }
  | none => st

def onPrevUp (st : PlayerState) (newTime : ℕ) : PlayerState :=
  if st.time + 300 > newTime then
    { st with isInterrupted := true, sent := st.sent ++ [PlayerCmd.previous] }
  else
    { st with sent := st.sent ++ [PlayerCmd.play] }

/-- One complete press/release cycle on the previous-track control, the two
handlers and the hold timer serialised in time order: a release before the
timer is due runs first and the timer callback still runs afterwards; by the
due time the timer has fired before a later release. -/
def runPrevCycle (pressT relT : ℕ) : PlayerState :=
  let pressed := onPrevDown PlayerState.start pressT
  if relT < pressT + 300 then fireHoldTimer (onPrevUp pressed relT)
  else onPrevUp (fireHoldTimer pressed) relT

/- ## Claim C8 -/

/-- Claim C8: colour encoding ceils each of the three channels (ceiling, not
nearest) and joins the results with commas; in particular hue 99.1 with zero
saturation and brightness encodes to the string 100,0,0. -/
theorem c8_color_encode_ceiling :
    (∀ h s b : ℚ, toState ⟨JsVal.num h, JsVal.num s, JsVal.num b⟩ =
      toString ⌈h⌉ ++ "," ++ toString ⌈s⌉ ++ "," ++ toString ⌈b⌉) ∧
    toState ⟨JsVal.num 99.1, JsVal.num 0, JsVal.num 0⟩ = "100,0,0" := by
  have h1 : ∀ h s b : ℚ, toState ⟨JsVal.num h, JsVal.num s, JsVal.num b⟩ =
      toString ⌈h⌉ ++ "," ++ toString ⌈s⌉ ++ "," ++ toString ⌈b⌉ := fun _ _ _ => rfl
  refine ⟨h1, ?_⟩
  rw [h1]
  have hc : ⌈(99.1 : ℚ)⌉ = 100 := by norm_num [Int.ceil_eq_iff]
  rw [hc, Int.ceil_zero]
  decide

/- ## Claim C9 -/

/-- Claim C9: colour decoding splits the wire string on commas; exactly three
components are taken as hue, saturation, brightness (each through parseInt),
and any other shape falls back to the all-zero colour rather than an error. -/
theorem c9_color_decode_split :
    (∀ s : String, (jsSplit s ',').length ≠ 3 →
      getStateAsObject s = ⟨JsVal.num 0, JsVal.num 0, JsVal.num 0⟩) ∧
    getStateAsObject "10,20,30" = ⟨JsVal.num 10, JsVal.num 20, JsVal.num 30⟩ ∧
    getStateAsObject "garbage" = ⟨JsVal.num 0, JsVal.num 0, JsVal.num 0⟩ := by
  refine ⟨?_, by decide, by decide⟩
  intro s hne
  unfold getStateAsObject
  rcases hsplit : jsSplit s ',' with _ | ⟨a, _ | ⟨b, _ | ⟨c, _ | ⟨d, t⟩⟩⟩⟩
  · rfl
  · rfl
  · rfl
  · exact absurd (by rw [hsplit]; rfl) hne
  · rfl

/-- Witness for claim C9: the universal fallback applied to a concrete string
with no comma at all. -/
theorem c9_color_decode_split_witness :
    getStateAsObject "xyz" = ⟨JsVal.num 0, JsVal.num 0, JsVal.num 0⟩ :=
  c9_color_decode_split.1 "xyz" (by decide)

/- ## Claim C10 -/

/-- Claim C10: when the colour debounce timer fires while the item state is
UNDEF, NULL or the dash placeholder, brightness and saturation are forced to
100 before the command is encoded, overriding the slider values. -/
theorem c10_uninitialized_forces_full :
    (∀ (itemState : String) (brightness saturation hue : Option ℚ),
      itemState = "UNDEF" ∨ itemState = "NULL" ∨ itemState = "-" →
      setColorFire itemState brightness saturation hue =
        ⟨toState ⟨numOrZeroStr hue, JsVal.num 100, JsVal.num 100⟩,
         toState ⟨numOrZeroStr hue, JsVal.num 100, JsVal.num 100⟩,
         some 100, some 100⟩) ∧
    setColorFire "UNDEF" (some 30) (some 40) (some 50) =
      ⟨"50,100,100", "50,100,100", some 100, some 100⟩ := by
  constructor
  · intro itemState brightness saturation hue h
    simp only [setColorFire, if_pos h]
  · simp only [setColorFire, getStateAsObject, numOrZeroStr, toState, ceilString, jsCeil,
      jsToNumber]
    norm_num [Int.ceil_eq_iff, jsSplit, splitOnChar]
    decide

/-- Witness for claim C10: the override applied at state UNDEF with sliders at
30, 40 and hue 50. -/
theorem c10_uninitialized_forces_full_witness :
    setColorFire "UNDEF" (some 30) (some 40) (some 50) =
      ⟨toState ⟨numOrZeroStr (some 50), JsVal.num 100, JsVal.num 100⟩,
       toState ⟨numOrZeroStr (some 50), JsVal.num 100, JsVal.num 100⟩,
       some 100, some 100⟩ :=
  c10_uninitialized_forces_full.1 "UNDEF" (some 30) (some 40) (some 50) (Or.inl rfl)

/- ## Claim C5 -/

/-- Claim C5: every complete press/release cycle of the previous-track control
emits exactly one of the two command variants, tap (PREVIOUS) or hold
(REWIND) — never both, never zero; the PLAY settle on a long hold is
additive.  A release at 100 produces only the tap, a release at 400 produces
the hold plus the settle and no tap. -/
theorem c5_exactly_one_variant :
    (∀ pressT relT : ℕ,
      ((runPrevCycle pressT relT).sent.count PlayerCmd.previous) +
        ((runPrevCycle pressT relT).sent.count PlayerCmd.rewind) = 1) ∧
    (runPrevCycle 0 100).sent = [PlayerCmd.previous] ∧
    (runPrevCycle 0 400).sent = [PlayerCmd.rewind, PlayerCmd.play] := by
  refine ⟨?_, by decide, by decide⟩
  intro p r
  by_cases hr : r < p + 300
  · simp [runPrevCycle, onPrevDown, onPrevUp, fireHoldTimer, PlayerState.start, hr]
  · simp [runPrevCycle, onPrevDown, onPrevUp, fireHoldTimer, PlayerState.start, hr]

/- ## Claim C4 -/

/-- Counterexample to claim C4: after a press at 0 and a quick release at 100
the tap went out and the interrupted flag is set, but the hold timer was not
cancelled — its handle is still armed for time 300. -/
theorem c4_counterexample :
    (onPrevUp (onPrevDown PlayerState.start 0) 100).holdTimer ≠ none ∧
    (onPrevUp (onPrevDown PlayerState.start 0) 100).holdTimer = some 300 ∧
    (onPrevUp (onPrevDown PlayerState.start 0) 100).isInterrupted = true ∧
    (onPrevUp (onPrevDown PlayerState.start 0) 100).sent = [PlayerCmd.previous] := by
  decide

/-- Claim C4 as amended: on a release under the threshold the interrupted flag
is set and the tap command goes out immediately, but the hold timer is not
cancelled — it stays armed, fires later, and emits nothing because its
callback checks the flag. -/
theorem c4_amended_quick_release :
    ∀ pressT relT : ℕ, relT < pressT + 300 →
    (onPrevUp (onPrevDown PlayerState.start pressT) relT).isInterrupted = true ∧
    (onPrevUp (onPrevDown PlayerState.start pressT) relT).sent = [PlayerCmd.previous] ∧
    (onPrevUp (onPrevDown PlayerState.start pressT) relT).holdTimer = some (pressT + 300) ∧
    (fireHoldTimer (onPrevUp (onPrevDown PlayerState.start pressT) relT)).sent
        = [PlayerCmd.previous] ∧
    (fireHoldTimer (onPrevUp (onPrevDown PlayerState.start pressT) relT)).holdTimer = none := by
  intro p r hr
  simp [onPrevDown, onPrevUp, fireHoldTimer, PlayerState.start, hr]

/-- Witness for the amended claim C4: press at 0, release at 100. -/
theorem c4_amended_quick_release_witness :
    (onPrevUp (onPrevDown PlayerState.start 0) 100).isInterrupted = true ∧
    (onPrevUp (onPrevDown PlayerState.start 0) 100).sent = [PlayerCmd.previous] ∧
    (onPrevUp (onPrevDown PlayerState.start 0) 100).holdTimer = some (0 + 300) ∧
    (fireHoldTimer (onPrevUp (onPrevDown PlayerState.start 0) 100)).sent
        = [PlayerCmd.previous] ∧
    (fireHoldTimer (onPrevUp (onPrevDown PlayerState.start 0) 100)).holdTimer = none :=
  c4_amended_quick_release 0 100 (by decide)

/- ## Claim C3 -/

/-- Counterexample to claim C3: the wire string UP matches the configured on
literal up case-insensitively, yet decoding fails, because the code compares
the configured literals with a case-sensitive equals. -/
theorem c3_counterexample :
    jsToUpper "UP" = jsToUpper "up" ∧
    OnOffValue.updateStr ⟨"up", "down", false⟩ "UP" = none := by
  decide

/-- Claim C3 as amended: the wire string is compared case-sensitively against
the configured on and off literals, case-insensitively against ON and OFF,
and exactly against 1 and 0; exactly the strings matching none of these fail;
inversion is applied exactly once, after a classification that always uses
the uninverted literal set. -/
theorem c3_amended_boolean_decode :
    ∀ (v : OnOffValue) (s : String),
    (OnOffValue.updateStr v s =
      (OnOffValue.updateStr ⟨v.onValue, v.offValue, false⟩ s).map
        fun b => if v.inverse then !b else b) ∧
    (OnOffValue.updateStr ⟨v.onValue, v.offValue, false⟩ s = some true ↔
      (v.onValue = s ∨ "ON" = jsToUpper s ∨ "1" = s)) ∧
    (OnOffValue.updateStr ⟨v.onValue, v.offValue, false⟩ s = some false ↔
      (¬(v.onValue = s ∨ "ON" = jsToUpper s ∨ "1" = s) ∧
        (v.offValue = s ∨ "OFF" = jsToUpper s ∨ "0" = s))) ∧
    (OnOffValue.updateStr v s = none ↔
      (¬(v.onValue = s ∨ "ON" = jsToUpper s ∨ "1" = s) ∧
        ¬(v.offValue = s ∨ "OFF" = jsToUpper s ∨ "0" = s))) := by
  intro v s
  by_cases h1 : v.onValue = s ∨ "ON" = jsToUpper s ∨ "1" = s
  · simp [OnOffValue.updateStr, h1]
  · by_cases h2 : v.offValue = s ∨ "OFF" = jsToUpper s ∨ "0" = s
    · simp [OnOffValue.updateStr, h1, h2]
    · simp [OnOffValue.updateStr, h1, h2]

/- ## Claim C6 -/

/-- Counterexample to claim C6: for the boolean descriptor with on literal
foo, off literal 1 and the inverse flag set, encoding Boolean true yields the
wire string 1, which classification reads back as on and inversion flips to
off — the round trip returns false, not true. -/
theorem c6_counterexample :
    OnOffValue.updateCmdOnOff ⟨"foo", "1", true⟩ true = "1" ∧
    OnOffValue.updateStr ⟨"foo", "1", true⟩
      (OnOffValue.updateCmdOnOff ⟨"foo", "1", true⟩ true) = some false := by
  decide

/-- Claim C6 as amended: with the inverse flag clear the decode-encode round
trip is the identity on Boolean true for every descriptor; with the flag set
it is the identity provided the off literal is not itself recognised as an on
literal (not the on literal, not ON case-insensitively, not 1). -/
theorem c6_amended_roundtrip :
    (∀ onLit offLit : String,
      OnOffValue.updateStr ⟨onLit, offLit, false⟩
        (OnOffValue.updateCmdOnOff ⟨onLit, offLit, false⟩ true) = some true) ∧
    (∀ v : OnOffValue, v.inverse = true →
      v.onValue ≠ v.offValue → "ON" ≠ jsToUpper v.offValue → "1" ≠ v.offValue →
      OnOffValue.updateStr v (OnOffValue.updateCmdOnOff v true) = some true) := by
  constructor
  · intro onLit offLit
    simp [OnOffValue.updateStr, OnOffValue.updateCmdOnOff]
  · intro v hinv hon hON h1
    simp [OnOffValue.updateStr, OnOffValue.updateCmdOnOff, hinv,
      Ne.symm hon, hon, hON, h1]

/-- Witness for the amended claim C6: the default descriptor with literals ON
and OFF and the inverse flag set round-trips Boolean true. -/
theorem c6_amended_roundtrip_witness :
    OnOffValue.updateStr ⟨"ON", "OFF", true⟩
      (OnOffValue.updateCmdOnOff ⟨"ON", "OFF", true⟩ true) = some true :=
  c6_amended_roundtrip.2 ⟨"ON", "OFF", true⟩ rfl (by decide) (by decide) (by decide)

/- ## Claim C7 -/

/-- Eta for strings as one-field structures. -/
theorem stringMkData (s : String) : (⟨s.data⟩ : String) = s := rfl

/-- The first space in a list that starts with a space-free prefix sits right
after that prefix. -/
theorem findIdx_space_append (l1 l2 : List Char) :
    (∀ c ∈ l1, c ≠ ' ') → (l1 ++ ' ' :: l2).findIdx (fun c => c = ' ') = l1.length := by
  induction l1 with
  | nil => intro _; simp [List.findIdx_cons]
  | cons a t ih =>
    intro h
    have ha : a ≠ ' ' := h a (List.mem_cons_self a t)
    have ih' := ih fun c hc => h c (List.mem_cons_of_mem a hc)
    simp [List.findIdx_cons, ha, ih']

/-- Counterexample to claim C7: the input that is abc preceded by a space
contains a space, yet it is not split there — no unit is stored and the state
stays the whole original string — because the code only splits when the first
space index is strictly positive. -/
theorem c7_counterexample :
    (' ' ∈ " abc".data) ∧
    (numericItemUpdate " abc").unit = none ∧
    (numericItemUpdate " abc").state = JsVal.str " abc" := by
  decide

/-- Claim C7 as amended: an input whose first space comes after a nonempty
space-free prefix is split at that space, the suffix stored as the unit and
the prefix parsed as a decimal; 23.5 followed by a degree-Celsius unit parses
to the rational 23.5 with that unit, and if the numeric part does not parse
the state keeps the original string unchanged, as the plain input abc
shows. -/
theorem c7_amended_numeric_decode :
    (∀ s1 s2 : String, s1 ≠ "" → (∀ c ∈ s1.data, c ≠ ' ') →
      (numericItemUpdate (s1 ++ " " ++ s2)).unit = some s2 ∧
      (numericItemUpdate (s1 ++ " " ++ s2)).state =
        (match jsNumberOfString s1 with
         | some q => JsVal.num q
         | none => JsVal.str (s1 ++ " " ++ s2))) ∧
    numericItemUpdate "23.5 °C" = ⟨JsVal.num 23.5, some "°C"⟩ ∧
    numericItemUpdate "abc" = ⟨JsVal.str "abc", none⟩ := by
  refine ⟨?_, ?_, by decide⟩
  · intro s1 s2 hne hns
    have hdata : (s1 ++ " " ++ s2).data = s1.data ++ ' ' :: s2.data := by
      simp [String.data_append]
    have hnonnil : s1.data ≠ [] := fun hnil => hne (String.ext (by rw [hnil]))
    have hlen : 0 < s1.data.length := List.length_pos.2 hnonnil
    have htake : (s1.data ++ ' ' :: s2.data).take s1.data.length = s1.data :=
      List.take_left s1.data (' ' :: s2.data)
    have hdrop : (s1.data ++ ' ' :: s2.data).drop (s1.data.length + 1) = s2.data := by
      have hcons : s1.data ++ ' ' :: s2.data = (s1.data ++ [' ']) ++ s2.data := by simp
      rw [hcons]
      simpa using List.drop_left (s1.data ++ [' ']) s2.data
    simp only [numericItemUpdate]
    rw [hdata, findIdx_space_append s1.data s2.data hns]
    rw [if_pos ⟨hlen, by simp⟩]
    rw [htake, hdrop, stringMkData s2, stringMkData s1]
    rcases hj : jsNumberOfString s1 with _ | q <;> simp [hj]
  · have h1 : numericItemUpdate "23.5 °C" = ⟨JsVal.num (mkRat 235 10), some "°C"⟩ := by
      decide
    rw [h1]
    have h2 : mkRat 235 10 = (23.5 : ℚ) := by
      norm_num [Rat.mkRat_eq_divInt, Rat.divInt_eq_div]
    rw [h2]

/-- Witness for the amended claim C7: the split applied to 23.5 with a
degree-Celsius unit suffix. -/
theorem c7_amended_numeric_decode_witness :
    (numericItemUpdate ("23.5" ++ " " ++ "°C")).unit = some "°C" :=
  (c7_amended_numeric_decode.1 "23.5" "°C" (by decide) (by decide)).1

/- ## Claim C2 -/

/-- While the colour debounce timer is armed for time `ft`, interactions all
strictly before `ft` only overwrite the brightness; the one send happens at
`ft` and carries the final brightness. -/
theorem colorRun_all_before :
    ∀ (evts : List (ℕ × Option ℚ)) (b0 : Option ℚ) (ft : ℕ) (s0 : List (ℕ × JsVal)),
    (∀ e ∈ evts, e.1 < ft) →
    colorRun ⟨b0, true, some ft, s0⟩ evts =
      ⟨(evts.map Prod.snd).getLastD b0, false, none,
        s0 ++ [(ft, numOrZeroStr ((evts.map Prod.snd).getLastD b0))]⟩ := by
  intro evts
  induction evts with
  | nil => intro b0 ft s0 _; rfl
  | cons e rest ih =>
    intro b0 ft s0 h
    obtain ⟨t, b⟩ := e
    have ht : t < ft := h (t, b) (List.mem_cons_self _ _)
    have hrest : ∀ e ∈ rest, e.1 < ft := fun e he => h e (List.mem_cons_of_mem _ he)
    have hfire : colorFireDue ⟨b0, true, some ft, s0⟩ t = ⟨b0, true, some ft, s0⟩ := by
      simp [colorFireDue, Nat.not_le.2 ht]
    have hset : colorSetBrightness ⟨b0, true, some ft, s0⟩ t b = ⟨b, true, some ft, s0⟩ := by
      simp [colorSetBrightness]
    calc colorRun ⟨b0, true, some ft, s0⟩ ((t, b) :: rest)
        = colorRun (colorSetBrightness (colorFireDue ⟨b0, true, some ft, s0⟩ t) t b) rest := rfl
      _ = colorRun ⟨b, true, some ft, s0⟩ rest := by rw [hfire, hset]
      _ = _ := by rw [ih b ft s0 hrest]; simp only [List.map_cons, List.getLastD_cons]

/-- A dimmer submission chain in which every step comes less than 300 after
the previous one keeps cancelling and re-arming the timer; only the final
command is sent, 300 after the final submission. -/
theorem dimmerRun_dense {α : Type} :
    ∀ (evts : List (ℕ × α)) (t0 : ℕ) (c0 : α) (s0 : List (ℕ × α)),
    List.Chain (fun a b => b.1 < a.1 + 300) (t0, c0) evts →
    dimmerRun ⟨some (t0 + 300, c0), s0⟩ evts =
      ⟨none, s0 ++ [((evts.map Prod.fst).getLastD t0 + 300, (evts.map Prod.snd).getLastD c0)]⟩ := by
  intro evts
  induction evts with
  | nil => intro t0 c0 s0 _; rfl
  | cons e rest ih =>
    intro t0 c0 s0 h
    obtain ⟨t, c⟩ := e
    rw [List.chain_cons] at h
    have ht : t < t0 + 300 := h.1
    have hfire : dimmerFireDue ⟨some (t0 + 300, c0), s0⟩ t = ⟨some (t0 + 300, c0), s0⟩ := by
      simp [dimmerFireDue, Nat.not_le.2 ht]
    calc dimmerRun ⟨some (t0 + 300, c0), s0⟩ ((t, c) :: rest)
        = dimmerRun (dimmerSendCommand (dimmerFireDue ⟨some (t0 + 300, c0), s0⟩ t) t c)
            rest := rfl
      _ = dimmerRun ⟨some (t + 300, c), s0⟩ rest := by rw [hfire]; rfl
      _ = _ := by rw [ih t c s0 h.2]; simp only [List.map_cons, List.getLastD_cons]

/-- A time-sorted chain of submissions that all sit inside the window opened
at `t0` has gaps under 300 between consecutive submissions. -/
theorem chain_window_dense {α : Type} :
    ∀ (evts : List (ℕ × α)) (p : ℕ × α) (t0 : ℕ), t0 ≤ p.1 →
    List.Chain (fun a b => a.1 ≤ b.1) p evts →
    (∀ e ∈ evts, e.1 < t0 + 300) →
    List.Chain (fun a b => b.1 < a.1 + 300) p evts := by
  intro evts
  induction evts with
  | nil => intro p t0 _ _ _; exact List.Chain.nil
  | cons e rest ih =>
    intro p t0 hp h hw
    rw [List.chain_cons] at h
    rw [List.chain_cons]
    refine ⟨?_, ih e t0 (hp.trans h.1) h.2 fun x hx => hw x (List.mem_cons_of_mem _ hx)⟩
    have := hw e (List.mem_cons_self _ _)
    omega

/-- Claim C2: all submissions of one burst landing inside a single debounce
window coalesce into exactly one outbound command carrying the last submitted
value — on the colour channel (sent when the window armed by the first
submission closes) and on the dimmer channel (sent 300 after the last
submission, since each submission there restarts the timer); the concrete
burst 5, 12, 9 sends only the command 9. -/
theorem c2_coalesce_last_value :
    (∀ (t0 : ℕ) (v0 : Option ℚ) (evts : List (ℕ × Option ℚ)),
      (∀ e ∈ evts, e.1 < t0 + 300) →
      (colorRun BrightnessSched.start ((t0, v0) :: evts)).sent =
        [(t0 + 300, numOrZeroStr ((evts.map Prod.snd).getLastD v0))]) ∧
    (∀ (α : Type) (t0 : ℕ) (c0 : α) (evts : List (ℕ × α)),
      List.Chain (fun a b => a.1 ≤ b.1) (t0, c0) evts →
      (∀ e ∈ evts, e.1 < t0 + 300) →
      (dimmerRun DimmerSched.start ((t0, c0) :: evts)).sent =
        [((evts.map Prod.fst).getLastD t0 + 300, (evts.map Prod.snd).getLastD c0)]) ∧
    (colorRun BrightnessSched.start [(0, some 5), (100, some 12), (200, some 9)]).sent =
      [(300, JsVal.num 9)] ∧
    (dimmerRun DimmerSched.start [(0, (5 : ℚ)), (100, 12), (200, 9)]).sent =
      [(500, (9 : ℚ))] := by
  refine ⟨?_, ?_, by decide, by decide⟩
  · intro t0 v0 evts h
    have hstep : colorSetBrightness (colorFireDue BrightnessSched.start t0) t0 v0 =
        ⟨v0, true, some (t0 + 300), []⟩ := by
      simp [colorFireDue, colorSetBrightness, BrightnessSched.start]
    calc (colorRun BrightnessSched.start ((t0, v0) :: evts)).sent
        = (colorRun (colorSetBrightness (colorFireDue BrightnessSched.start t0) t0 v0)
            evts).sent := rfl
      _ = _ := by rw [hstep, colorRun_all_before evts v0 (t0 + 300) [] h]; simp
  · intro α t0 c0 evts hsorted hw
    have hdense := chain_window_dense evts (t0, c0) t0 le_rfl hsorted hw
    have hstep : dimmerSendCommand (dimmerFireDue DimmerSched.start t0) t0 c0 =
        ⟨some (t0 + 300, c0), []⟩ := by
      simp [dimmerFireDue, dimmerSendCommand, DimmerSched.start]
    calc (dimmerRun DimmerSched.start ((t0, c0) :: evts)).sent
        = (dimmerRun (dimmerSendCommand (dimmerFireDue DimmerSched.start t0) t0 c0)
            evts).sent := rfl
      _ = _ := by rw [hstep, dimmerRun_dense evts t0 c0 [] hdense]; simp

/-- Witness for claim C2: the colour-channel burst 5, 12, 9 inside one window
coalesces to a single command carrying 9. -/
theorem c2_coalesce_last_value_witness :
    (colorRun BrightnessSched.start ((0, some 5) :: [(100, some 12), (200, some 9)])).sent =
      [(0 + 300, numOrZeroStr (([(100, some (12 : ℚ)), (200, some 9)].map Prod.snd).getLastD
        (some 5)))] :=
  c2_coalesce_last_value.1 0 (some 5) [(100, some 12), (200, some 9)] (by decide)

/- ## Claim C1 -/

/-- The send times of a brightness scheduler state. -/
def sentTimes (st : BrightnessSched) : List ℕ :=
  st.sent.map Prod.fst

/-- Invariant of the brightness scheduler seen from a lower bound `lb` on all
future interaction times: the pending flag mirrors the armed timer, past
sends are at least a window apart, an armed timer is a full window after
every past send, and with no timer armed every past send is at most `lb`. -/
def SchedInv (st : BrightnessSched) (lb : ℕ) : Prop :=
  st.pending = st.fireAt.isSome ∧
  List.Chain' (fun a b => a + 300 ≤ b) (sentTimes st) ∧
  (∀ ft, st.fireAt = some ft → ∀ x ∈ sentTimes st, x + 300 ≤ ft) ∧
  (st.fireAt = none → ∀ x ∈ sentTimes st, x ≤ lb)

theorem schedInv_start (lb : ℕ) : SchedInv BrightnessSched.start lb := by
  simp [SchedInv, sentTimes, BrightnessSched.start]

/-- Appending a send a full window after every earlier send keeps the sends
spaced. -/
theorem chain_spaced_snoc {l : List ℕ} {ft : ℕ}
    (hchain : List.Chain' (fun a b => a + 300 ≤ b) l)
    (hall : ∀ x ∈ l, x + 300 ≤ ft) :
    List.Chain' (fun a b => a + 300 ≤ b) (l ++ [ft]) := by
  refine List.Chain'.append hchain (List.chain'_singleton ft) ?_
  intro x hx y hy
  have hxl : x ∈ l := by
    rcases List.mem_getLast?_eq_getLast hx with ⟨hne, rfl⟩
    exact List.getLast_mem hne
  have hyft : ft = y := by simpa using hy
  subst hyft
  exact hall x hxl

/-- One interaction step (due timer firing, then the `setBrightness` body)
preserves the scheduler invariant, moving the lower bound up to the
interaction time. -/
theorem schedInv_step (st : BrightnessSched) (lb t : ℕ) (b : Option ℚ)
    (hlb : lb ≤ t) (h : SchedInv st lb) :
    SchedInv (colorSetBrightness (colorFireDue st t) t b) t := by
  obtain ⟨hp, hchain, hsome, hnone⟩ := h
  rcases hft : st.fireAt with _ | ft
  · have hp' : st.pending = false := by rw [hp, hft]; rfl
    have hfire : colorFireDue st t = st := by simp [colorFireDue, hft]
    have hset : colorSetBrightness st t b =
        { st with brightness := b, pending := true, fireAt := some (t + 300) } := by
      simp [colorSetBrightness, hp']
    rw [hfire, hset]
    refine ⟨rfl, hchain, ?_, ?_⟩
    · intro ft' hft' x hx
      have hft'' : ft' = t + 300 := by simpa using hft'.symm
      have hxlb : x ≤ lb := hnone hft x hx
      omega
    · intro hcontra
      simp at hcontra
  · by_cases hdue : ft ≤ t
    · have hfire : colorFireDue st t =
          ⟨st.brightness, false, none, st.sent ++ [(ft, numOrZeroStr st.brightness)]⟩ := by
        simp [colorFireDue, hft, hdue]
      have hset : colorSetBrightness
          ⟨st.brightness, false, none, st.sent ++ [(ft, numOrZeroStr st.brightness)]⟩ t b =
          ⟨b, true, some (t + 300), st.sent ++ [(ft, numOrZeroStr st.brightness)]⟩ := by
        simp [colorSetBrightness]
      rw [hfire, hset]
      have hall : ∀ x ∈ sentTimes st, x + 300 ≤ ft := hsome ft hft
      have htimes : sentTimes
          ⟨b, true, some (t + 300), st.sent ++ [(ft, numOrZeroStr st.brightness)]⟩ =
          sentTimes st ++ [ft] := by
        simp [sentTimes]
      refine ⟨rfl, ?_, ?_, ?_⟩
      · rw [htimes]
        exact chain_spaced_snoc hchain hall
      · intro ft' hft' x hx
        have hft'' : ft' = t + 300 := by simpa using hft'.symm
        rw [htimes] at hx
        rcases List.mem_append.1 hx with hx | hx
        · have := hall x hx
          omega
        · have : x = ft := by simpa using hx
          omega
      · intro hcontra
        simp at hcontra
    · have hp' : st.pending = true := by rw [hp, hft]; rfl
      have hfire : colorFireDue st t = st := by simp [colorFireDue, hft, hdue]
      have hset : colorSetBrightness st t b = { st with brightness := b } := by
        simp [colorSetBrightness, hp']
      rw [hfire, hset]
      refine ⟨hp, hchain, fun ft' hft' x hx => hsome ft' hft' x hx, ?_⟩
      intro hcontra
      rw [hft] at hcontra
      cases hcontra

/-- Letting the last armed timer fire keeps the sends spaced. -/
theorem schedInv_drain (st : BrightnessSched) (lb : ℕ) (h : SchedInv st lb) :
    List.Chain' (fun a b => a + 300 ≤ b) (sentTimes (colorDrain st)) := by
  obtain ⟨hp, hchain, hsome, hnone⟩ := h
  rcases hft : st.fireAt with _ | ft
  · have : colorDrain st = st := by simp [colorDrain, hft]
    rw [this]
    exact hchain
  · have hdr : colorDrain st =
        ⟨st.brightness, false, none, st.sent ++ [(ft, numOrZeroStr st.brightness)]⟩ := by
      simp [colorDrain, hft]
    rw [hdr]
    have htimes : sentTimes
        ⟨st.brightness, false, none, st.sent ++ [(ft, numOrZeroStr st.brightness)]⟩ =
        sentTimes st ++ [ft] := by
      simp [sentTimes]
    rw [htimes]
    exact chain_spaced_snoc hchain (hsome ft hft)

/-- For any time-sorted interaction trace, the brightness scheduler sends
commands spaced at least a full 300 window apart. -/
theorem colorRun_spacing :
    ∀ (evts : List (ℕ × Option ℚ)) (st : BrightnessSched) (lb : ℕ),
    List.Chain (fun a b => a ≤ b) lb (evts.map Prod.fst) → SchedInv st lb →
    List.Chain' (fun a b => a + 300 ≤ b) (sentTimes (colorRun st evts)) := by
  intro evts
  induction evts with
  | nil => intro st lb _ h; exact schedInv_drain st lb h
  | cons e rest ih =>
    intro st lb hc hinv
    obtain ⟨t, b⟩ := e
    rw [List.map_cons, List.chain_cons] at hc
    exact ih (colorSetBrightness (colorFireDue st t) t b) t hc.2
      (schedInv_step st lb t b hc.1 hinv)

/-- Counterexample to claim C1: the dimmer channel restarts its timer on
every submission — a second submission at 200 while the timer armed at 0 is
still pending moves the armed fire time from 300 to 500 — and a burst of ten
submissions 200 apart over 1800 time units produces one single command (300
after the last submission), not the six or so one per window would give. -/
theorem c1_counterexample :
    (dimmerSendCommand (DimmerSched.start : DimmerSched String) 0 "a").commandTimeout
        = some (300, "a") ∧
    (dimmerSendCommand (dimmerSendCommand DimmerSched.start 0 "a") 200 "b").commandTimeout
        = some (500, "b") ∧
    (dimmerRun DimmerSched.start
      [(0, "a"), (200, "b"), (400, "c"), (600, "d"), (800, "e"),
       (1000, "f"), (1200, "g"), (1400, "h"), (1600, "i"), (1800, "j")]).sent
        = [(2100, "j")] := by
  decide

/-- Claim C1 as amended: on the colour channel a submission while the timer
is armed neither starts nor restarts a timer (it only overwrites the
brightness), and outbound commands on any time-sorted trace are at least one
window apart, which bounds the send count by the elapsed time over 300 plus
one rather than by the number of submissions; the dimmer channel instead
re-arms its timer to 300 after every submission, so the dense ten-submission
burst yields five colour commands but a single dimmer command. -/
theorem c1_amended_debounce :
    (∀ (st : BrightnessSched) (now : ℕ) (b : Option ℚ), st.pending = true →
      colorSetBrightness st now b = { st with brightness := b }) ∧
    (∀ (evts : List (ℕ × Option ℚ)) (lb : ℕ),
      List.Chain (fun a b => a ≤ b) lb (evts.map Prod.fst) →
      List.Chain' (fun a b => a + 300 ≤ b)
        ((colorRun BrightnessSched.start evts).sent.map Prod.fst)) ∧
    (∀ (st : DimmerSched String) (now : ℕ) (c : String),
      (dimmerSendCommand st now c).commandTimeout = some (now + 300, c)) ∧
    (colorRun BrightnessSched.start
      [(0, some 1), (200, some 2), (400, some 3), (600, some 4), (800, some 5),
       (1000, some 6), (1200, some 7), (1400, some 8), (1600, some 9),
       (1800, some 10)]).sent.length = 5 ∧
    (dimmerRun DimmerSched.start
      [(0, "a"), (200, "b"), (400, "c"), (600, "d"), (800, "e"),
       (1000, "f"), (1200, "g"), (1400, "h"), (1600, "i"), (1800, "j")]).sent.length
        = 1 := by
  refine ⟨?_, ?_, fun _ _ _ => rfl, by decide, by decide⟩
  · intro st now b hpending
    simp [colorSetBrightness, hpending]
  · intro evts lb hc
    exact colorRun_spacing evts BrightnessSched.start lb hc (schedInv_start lb)

/-- Witness for the amended claim C1: a submission at 200 while the timer is
armed for 300 only overwrites the brightness, and the two-submission trace at
0 and 400 yields spaced sends. -/
theorem c1_amended_debounce_witness :
    colorSetBrightness ⟨some 5, true, some 300, []⟩ 200 (some 7)
        = ⟨some 7, true, some 300, []⟩ ∧
    List.Chain' (fun a b => a + 300 ≤ b)
      ((colorRun BrightnessSched.start [(0, some 1), (400, some 2)]).sent.map Prod.fst) :=
  ⟨c1_amended_debounce.1 ⟨some 5, true, some 300, []⟩ 200 (some 7) rfl,
   c1_amended_debounce.2.1 [(0, some 1), (400, some 2)] 0
     (List.Chain.cons (by decide) (List.Chain.cons (by decide) List.Chain.nil))⟩

end Smarthome
